import Mathlib

/-!
Verification of the temperature cache and batched-fetch aggregator.

Shallow embedding of the core logic of `src/main.py` of
`api-temperatura-brasil`: the batch temperature fetcher
`_fetch_temps_batch_open_meteo`, the cache-backed aggregator
`_get_temps_for_cities`, the per-city cached fetch `_get_temp_cached`
together with the thread-pool fan-out variant, and the temperature sort
of the `/api/cities` endpoint.

Modelling choices:
* `time.time()` values and temperatures are rationals (`ℚ`); Python floats
  carry no overflow/rounding concern in the claims considered.
* The upstream HTTP GET is a parameter (`oracle`): it maps the requested
  coordinate list to an outcome, which is either `failure` (transport
  error, non-2xx, unparseable body — everything the bare `except` of
  `_fetch_temps_batch_open_meteo` catches) or a parsed
  `current.temperature_2m` field (absent/null, a scalar, or a list whose
  entries may be null).
* `temp_cache` is an association list; `temp_cache[cid] = v` is modelled by
  consing `(cid, v)` and looking up the most recent binding, which has the
  same lookup semantics as the Python dict assignment.
* The `for i, c in enumerate(cities)` partition loop of
  `_get_temps_for_cities` builds `results`, `to_fetch` and `to_fetch_idx`;
  each is translated by the comprehension it computes
  (`results_init`, `to_fetch`, `to_fetch_idx`).  The write-back loop
  `for j, i in enumerate(to_fetch_idx)` is kept as a fold
  (`fill_results` for `results[i] = temp`, `fill_cache` for
  `temp_cache[cid] = (temp, now)`); its two updates touch disjoint state,
  so the fold is split in two.
* The thread-pool fan-out variant appends one row per completed future in
  `as_completed` order; the completion order is an explicit parameter
  (a list of input indices), and the per-city resolution of
  `_get_temp_cached` is a parameter `tempOf`.
-/

namespace TempBrasil

/-- Constant `TEMP_CACHE_TTL_SECONDS = 120` (main.py line 18). -/
def TEMP_CACHE_TTL_SECONDS : ℚ := 120

/-- A city record `{"id": int, "nome": str, "lat": float, "lon": float,
"pop": int}` (main.py line 110). -/
structure City where
  id : Nat
  nome : String
  lat : ℚ
  lon : ℚ
  pop : Nat
  deriving DecidableEq, Repr, Inhabited

/-- One output row of `_get_temps_for_cities` (main.py lines 404-414). -/
structure CityOut where
  id : Nat
  cidade : String
  uf : Option String
  habitantes : Nat
  lat : ℚ
  lon : ℚ
  temperatura : Option ℚ
  unidade : String
  deriving DecidableEq, Repr, Inhabited

/-- The parsed `current.temperature_2m` field of the upstream payload
(main.py line 353): absent or null, a single scalar, or a list whose
entries may be null. -/
inductive TempsField where
  | missing
  | scalar (t : ℚ)
  | array (ts : List (Option ℚ))
  deriving DecidableEq, Repr

/-- Outcome of the upstream GET inside `_fetch_temps_batch_open_meteo`
(main.py lines 349-364): `failure` is anything the bare `except` catches
(transport error, non-2xx from `raise_for_status`, unparseable JSON);
`ok` carries the parsed `temperature_2m` field. -/
inductive UpstreamOutcome where
  | failure
  | ok (temps : TempsField)
  deriving DecidableEq, Repr

/-- The GET requests `_fetch_temps_batch_open_meteo` issues for a given
coordinate list: none when the list is empty (early return, main.py
lines 337-338), otherwise exactly one request carrying the whole list
(main.py lines 340-350). -/
def upstreamCalls (latlons : List (ℚ × ℚ)) : List (List (ℚ × ℚ)) :=
  if latlons = [] then [] else [latlons]

/-- The comma-joined `latitude` parameter of the single batch request
(main.py line 340). -/
def batchLats (latlons : List (ℚ × ℚ)) : String :=
  String.intercalate "," (latlons.map fun p => toString p.1)

/-- The comma-joined `longitude` parameter of the single batch request
(main.py line 341). -/
def batchLons (latlons : List (ℚ × ℚ)) : String :=
  String.intercalate "," (latlons.map fun p => toString p.2)

/-- Function `_fetch_temps_batch_open_meteo` (main.py lines 332-364).
Empty input returns `[]` without any request.  Otherwise the outcome of
the single batched GET is interpreted: a list payload is taken as-is
(`[None if t is None else float(t) for t in temps]`), a missing/null
field yields all-`None`, a scalar fills only the first position, and any
caught exception yields all-`None`. -/
def _fetch_temps_batch_open_meteo (oracle : List (ℚ × ℚ) → UpstreamOutcome)
    (latlons : List (ℚ × ℚ)) : List (Option ℚ) :=
  if latlons = [] then []
  else
    match oracle latlons with
    | .failure => List.replicate latlons.length none
    | .ok .missing => List.replicate latlons.length none
    | .ok (.scalar t) => some t :: List.replicate (latlons.length - 1) none
    | .ok (.array ts) => ts

/-- State `temp_cache`: maps a geoname id to `(temp_c, ts_epoch)` (main.py
line 113-115). -/
abbrev Cache := List (Nat × (Option ℚ × ℚ))

/-- Dict lookup `temp_cache[cid]` / `cid in temp_cache`: the most recent
binding for `cid`. -/
def cacheLookup (cache : Cache) (cid : Nat) : Option (Option ℚ × ℚ) :=
  (cache.find? fun p => p.1 == cid).map Prod.snd

/-- Dict assignment `temp_cache[cid] = v`. -/
def cacheInsert (cache : Cache) (cid : Nat) (v : Option ℚ × ℚ) : Cache :=
  (cid, v) :: cache

/-- The freshness test of the partition loop (main.py lines 381-383):
`cid in temp_cache and (now - ts) < TEMP_CACHE_TTL_SECONDS`. -/
def _cache_fresh (cache : Cache) (now : ℚ) (cid : Nat) : Bool :=
  match cacheLookup cache cid with
  | some (_, ts) => decide (now - ts < TEMP_CACHE_TTL_SECONDS)
  | none => false

/-- The cached temperature for `cid` (the `temp` component of
`temp_cache[cid]`), `none` when there is no entry. -/
def cachedTemp (cache : Cache) (cid : Nat) : Option ℚ :=
  match cacheLookup cache cid with
  | some (temp, _) => temp
  | none => none

/-- List `results` after the partition loop (main.py lines 374-388):
initialised to `[None] * len(cities)`, and `results[i] = temp` exactly at
the positions whose cache entry is fresh. -/
def results_init (cache : Cache) (now : ℚ) (cities : List City) :
    List (Option ℚ) :=
  cities.map fun c =>
    if _cache_fresh cache now c.id then cachedTemp cache c.id else none

/-- The `(i, c)` pairs of the partition loop that fall through to the
`to_fetch` branch (no cache entry, or a stale one; main.py
lines 386-388). -/
def staleEnum (cache : Cache) (now : ℚ) (cities : List City) :
    List (Nat × City) :=
  cities.enum.filter fun p => ! _cache_fresh cache now p.2.id

/-- List `to_fetch` after the partition loop: the `(lat, lon)` pairs of the
stale records, in input order (main.py line 387). -/
def to_fetch (cache : Cache) (now : ℚ) (cities : List City) :
    List (ℚ × ℚ) :=
  (staleEnum cache now cities).map fun p => (p.2.lat, p.2.lon)

/-- List `to_fetch_idx` after the partition loop: the input positions of the
stale records, in input order (main.py line 388). -/
def to_fetch_idx (cache : Cache) (now : ℚ) (cities : List City) :
    List Nat :=
  (staleEnum cache now cities).map Prod.fst

/-- The write-back loop `for j, i in enumerate(to_fetch_idx)` on
`results` (main.py lines 395-400): `results[i] = fetched[j] if
j < len(fetched) else None`. -/
def fill_results (results : List (Option ℚ)) (idx : List Nat)
    (fetched : List (Option ℚ)) : List (Option ℚ) :=
  idx.enum.foldl (fun res ji => res.set ji.2 (fetched.getD ji.1 none)) results

/-- The write-back loop on the cache (main.py line 399):
`temp_cache[cid] = (temp, now)` for each fetched record. -/
def fill_cache (cache : Cache) (now : ℚ) (cities : List City)
    (idx : List Nat) (fetched : List (Option ℚ)) : Cache :=
  idx.enum.foldl
    (fun ch ji =>
      cacheInsert ch (cities.getD ji.2 default).id (fetched.getD ji.1 none, now))
    cache

/-- One output dict of `_get_temps_for_cities` (main.py lines 405-414). -/
def mkOut (c : City) (temp : Option ℚ) : CityOut :=
  { id := c.id, cidade := c.nome, uf := none, habitantes := c.pop,
    lat := c.lat, lon := c.lon, temperatura := temp, unidade := "°C" }

/-- Function `_get_temps_for_cities` (main.py lines 367-415), with the shared
`temp_cache`, `time.time()` and the network passed explicitly.  Returns
the output rows together with the cache after the call. -/
def _get_temps_for_cities (cache : Cache) (now : ℚ)
    (oracle : List (ℚ × ℚ) → UpstreamOutcome) (cities : List City) :
    List CityOut × Cache :=
  let idx := to_fetch_idx cache now cities
  let fetched := _fetch_temps_batch_open_meteo oracle (to_fetch cache now cities)
  let results := fill_results (results_init cache now cities) idx fetched
  (cities.enum.map fun p => mkOut p.2 (results.getD p.1 none),
   fill_cache cache now cities idx fetched)

/-- The thread-pool fan-out variant (main.py lines 416-440): one
`_get_temp_cached` future per city, rows appended in `as_completed`
order.  `completion` is the order in which the futures complete, as a
list of input indices; `tempOf i` is what `fut.result()` resolves for
city `i` (`None` when it raised). -/
def fanout_results (cities : List City) (tempOf : Nat → Option ℚ)
    (completion : List Nat) : List CityOut :=
  completion.map fun i => mkOut (cities.getD i default) (tempOf i)

/-- Python truthiness of `x or y` for `x : float | None`: both `None` and
`0.0` are falsy. -/
def pyOr (x : Option ℚ) (y : ℚ) : ℚ :=
  match x with
  | none => y
  | some v => if v = 0 then y else v

/-- The sort key of `/api/cities` (main.py line 481):
`(x["temperatura"] is None, -(x["temperatura"] or -9999))`. -/
def sortKey (x : CityOut) : Bool × ℚ :=
  (x.temperatura.isNone, -(pyOr x.temperatura (-9999)))

/-- Python tuple comparison of two sort keys (`False < True` on the first
component, then `≤` on the second). -/
def keyLe (a b : CityOut) : Prop :=
  (sortKey a).1 = false ∧ (sortKey b).1 = true ∨
    (sortKey a).1 = (sortKey b).1 ∧ (sortKey a).2 ≤ (sortKey b).2

instance : DecidableRel keyLe := fun a b => by
  unfold keyLe; infer_instance

/-- Sort `data.sort(key=...)` of `/api/cities` (main.py line 481): a stable
ascending sort by `sortKey`.  Python's sort is stable, and any two stable
sorts by the same total preorder agree, so insertion sort is a faithful
model. -/
def api_cities_sortData (data : List CityOut) : List CityOut :=
  List.insertionSort keyLe data

/-! Helper lemmas about the partition of the input. -/

/-- Membership in the stale partition: the pair is a position of `cities`
with the city there, whose freshness test failed. -/
theorem mem_staleEnum {cache : Cache} {now : ℚ} {cities : List City}
    {p : Nat × City} :
    p ∈ staleEnum cache now cities ↔
      cities[p.1]? = some p.2 ∧ _cache_fresh cache now p.2.id = false := by
  simp [staleEnum, List.mem_filter, List.mem_enum_iff_getElem?]

/-- The stale positions are pairwise distinct. -/
theorem to_fetch_idx_nodup (cache : Cache) (now : ℚ) (cities : List City) :
    (to_fetch_idx cache now cities).Nodup := by
  have hsub : (to_fetch_idx cache now cities).Sublist
      (cities.enum.map Prod.fst) :=
    List.Sublist.map Prod.fst (List.filter_sublist _)
  rw [List.enum_map_fst] at hsub
  exact hsub.nodup (List.nodup_range _)

/-- Characterisation of the stale positions. -/
theorem mem_to_fetch_idx {cache : Cache} {now : ℚ} {cities : List City}
    {i : Nat} :
    i ∈ to_fetch_idx cache now cities ↔
      ∃ c, cities[i]? = some c ∧ _cache_fresh cache now c.id = false := by
  constructor
  · intro hm
    rcases List.mem_map.1 hm with ⟨p, hp, rfl⟩
    rcases mem_staleEnum.1 hp with ⟨hget, hfresh⟩
    exact ⟨p.2, hget, hfresh⟩
  · rintro ⟨c, hget, hfresh⟩
    exact List.mem_map.2 ⟨(i, c), mem_staleEnum.2 ⟨hget, hfresh⟩, rfl⟩

/-- A stale position is a position of the input. -/
theorem to_fetch_idx_lt {cache : Cache} {now : ℚ} {cities : List City}
    {i : Nat} (h : i ∈ to_fetch_idx cache now cities) : i < cities.length := by
  rcases mem_to_fetch_idx.1 h with ⟨c, hget, -⟩
  exact (List.getElem?_eq_some.1 hget).1

/-- Mapping a function of the city over the stale pairs of an
`enumFrom`-indexed list forgets the indices. -/
theorem enumFrom_filter_map_snd {α β : Type} (q : α → Bool) (g : α → β)
    (l : List α) (k : Nat) :
    ((List.enumFrom k l).filter fun p => q p.2).map (fun p => g p.2) =
      (l.filter q).map g := by
  induction l generalizing k with
  | nil => rfl
  | cons a l ih =>
      by_cases hqa : q a
      · simp [List.enumFrom_cons, List.filter_cons, hqa, ih (k + 1)]
      · simp [List.enumFrom_cons, List.filter_cons, hqa, ih (k + 1)]

/-- The batch request carries exactly the coordinates of the stale
records, in input order. -/
theorem to_fetch_eq (cache : Cache) (now : ℚ) (cities : List City) :
    to_fetch cache now cities =
      ((cities.filter fun c => ! _cache_fresh cache now c.id).map
        fun c => (c.lat, c.lon)) := by
  unfold to_fetch staleEnum
  have he : cities.enum = List.enumFrom 0 cities := rfl
  rw [he]
  exact enumFrom_filter_map_snd (fun c => ! _cache_fresh cache now c.id)
    (fun c => (c.lat, c.lon)) cities 0

/-! Helper lemmas about the write-back fold on `results`. -/

/-- Positions outside `idx` are untouched by the write-back fold. -/
theorem fillfold_getElem?_not_mem (fetched : List (Option ℚ))
    (idx : List Nat) (k : Nat) (res0 : List (Option ℚ)) (i : Nat)
    (hi : i ∉ idx) :
    ((List.enumFrom k idx).foldl
        (fun res ji => res.set ji.2 (fetched.getD ji.1 none)) res0)[i]? =
      res0[i]? := by
  induction idx generalizing k res0 with
  | nil => rfl
  | cons a idx ih =>
      have hia : a ≠ i := fun h => hi (h ▸ List.mem_cons_self a idx)
      rw [List.enumFrom_cons, List.foldl_cons,
        ih (k + 1) _ (fun h => hi (List.mem_cons_of_mem a h)),
        List.getElem?_set_ne hia]

/-- The write-back fold preserves the length of `results`. -/
theorem fillfold_length (fetched : List (Option ℚ)) (idx : List Nat)
    (k : Nat) (res0 : List (Option ℚ)) :
    ((List.enumFrom k idx).foldl
        (fun res ji => res.set ji.2 (fetched.getD ji.1 none)) res0).length =
      res0.length := by
  induction idx generalizing k res0 with
  | nil => rfl
  | cons a idx ih =>
      rw [List.enumFrom_cons, List.foldl_cons, ih (k + 1), List.length_set]

/-- The write-back fold writes `fetched[k + j]` (defaulting to `none`) at
the `j`-th position listed in `idx`. -/
theorem fillfold_getElem?_at (fetched : List (Option ℚ)) (idx : List Nat)
    (k : Nat) (res0 : List (Option ℚ)) (hnd : idx.Nodup)
    (hb : ∀ i ∈ idx, i < res0.length) (j : Nat) (hj : j < idx.length) :
    ((List.enumFrom k idx).foldl
        (fun res ji => res.set ji.2 (fetched.getD ji.1 none)) res0)[idx[j]]? =
      some (fetched.getD (k + j) none) := by
  induction idx generalizing k res0 j with
  | nil => exact absurd hj (Nat.not_lt_zero j)
  | cons a idx ih =>
      rw [List.enumFrom_cons, List.foldl_cons]
      rcases j with _ | j
      · have ha : a ∉ idx := (List.nodup_cons.1 hnd).1
        rw [List.getElem_cons_zero,
          fillfold_getElem?_not_mem fetched idx (k + 1) _ a ha,
          List.getElem?_set_self (hb a (List.mem_cons_self a idx)),
          Nat.add_zero]
      · have hj2 : j < idx.length := Nat.lt_of_succ_lt_succ hj
        rw [List.getElem_cons_succ,
          ih (k + 1) _ (List.nodup_cons.1 hnd).2
            (fun i hi => by
              rw [List.length_set]
              exact hb i (List.mem_cons_of_mem a hi)) j hj2]
        have harith : k + 1 + j = k + (j + 1) := by omega
        rw [harith]

/-! Helper lemmas about the write-back fold on the cache. -/

/-- Folding cons-insertions is prepending the reversed insertion list. -/
theorem foldl_consmap_eq {α β : Type} (f : α → β) (l : List α)
    (init : List β) :
    l.foldl (fun acc a => f a :: acc) init = (l.map f).reverse ++ init := by
  induction l generalizing init with
  | nil => rfl
  | cons a l ih =>
      rw [List.foldl_cons, ih, List.map_cons, List.reverse_cons,
        List.append_assoc, List.singleton_append]

/-- The cache after the write-back loop is the reversed insertion list on
top of the old cache. -/
theorem fill_cache_eq (cache : Cache) (now : ℚ) (cities : List City)
    (idx : List Nat) (fetched : List (Option ℚ)) :
    fill_cache cache now cities idx fetched =
      (idx.enum.map fun ji =>
        ((cities.getD ji.2 default).id, (fetched.getD ji.1 none, now))).reverse
        ++ cache := by
  unfold fill_cache cacheInsert
  exact foldl_consmap_eq _ _ _

/-- In an association list with pairwise distinct keys, `find?` returns
the binding of any key that is bound. -/
theorem find_nodupkeys {V : Type} (l : List (Nat × V)) (k : Nat) (v : V)
    (hnd : (l.map Prod.fst).Nodup) (hmem : (k, v) ∈ l) :
    l.find? (fun p => p.1 == k) = some (k, v) := by
  induction l with
  | nil => cases hmem
  | cons a l ih =>
      rcases List.mem_cons.1 hmem with rfl | hmem2
      · simp [List.find?_cons]
      · have hk : k ∈ l.map Prod.fst := List.mem_map.2 ⟨(k, v), hmem2, rfl⟩
        have hak : a.1 ≠ k := fun h => (List.nodup_cons.1 hnd).1 (h ▸ hk)
        rw [List.find?_cons]
        have : (a.1 == k) = false := beq_eq_false_iff_ne.2 hak
        rw [this]
        exact ih (List.nodup_cons.1 hnd).2 hmem2

/-- Looking up a key bound in the distinct-keys prefix of an appended
cache returns that binding. -/
theorem cacheLookup_append_of_mem (l1 l2 : Cache) (k : Nat)
    (v : Option ℚ × ℚ) (hnd : (l1.map Prod.fst).Nodup) (hmem : (k, v) ∈ l1) :
    cacheLookup (l1 ++ l2) k = some v := by
  unfold cacheLookup
  rw [List.find?_append, find_nodupkeys l1 k v hnd hmem]
  rfl

/-! Characterisation of the aggregator's output list. -/

/-- The aggregator emits one row per input record. -/
theorem agg_length (cache : Cache) (now : ℚ)
    (oracle : List (ℚ × ℚ) → UpstreamOutcome) (cities : List City) :
    (_get_temps_for_cities cache now oracle cities).1.length = cities.length := by
  simp [_get_temps_for_cities, List.enum_length]

/-- The `i`-th output row of the aggregator: the `i`-th input record's
fields with the `i`-th entry of the filled `results` list. -/
theorem agg_getElem? (cache : Cache) (now : ℚ)
    (oracle : List (ℚ × ℚ) → UpstreamOutcome) (cities : List City)
    (i : Nat) (hi : i < cities.length) :
    (_get_temps_for_cities cache now oracle cities).1[i]? =
      some (mkOut cities[i]
        ((fill_results (results_init cache now cities)
            (to_fetch_idx cache now cities)
            (_fetch_temps_batch_open_meteo oracle
              (to_fetch cache now cities))).getD i none)) := by
  unfold _get_temps_for_cities
  have hi2 : i < cities.enum.length := by
    rw [List.enum_length]; exact hi
  simp only [List.getElem?_map, List.getElem?_eq_getElem hi2,
    List.getElem_enum]
  rfl

/-- At a fresh position the aggregator returns the cached temperature. -/
theorem agg_temp_fresh (cache : Cache) (now : ℚ)
    (oracle : List (ℚ × ℚ) → UpstreamOutcome) (cities : List City)
    (i : Nat) (hi : i < cities.length)
    (hfresh : _cache_fresh cache now cities[i].id = true) :
    (((_get_temps_for_cities cache now oracle cities).1.getD i
        default).temperatura = cachedTemp cache cities[i].id) ∧
      i ∉ to_fetch_idx cache now cities := by
  have hnm : i ∉ to_fetch_idx cache now cities := by
    intro hmem
    rcases mem_to_fetch_idx.1 hmem with ⟨c, hget, hf⟩
    rw [List.getElem?_eq_getElem hi, Option.some_inj] at hget
    rw [← hget, hfresh] at hf
    simp at hf
  refine ⟨?_, hnm⟩
  rw [List.getD_eq_getElem?_getD, agg_getElem? cache now oracle cities i hi]
  show (mkOut cities[i] _).temperatura = _
  unfold mkOut fill_results
  have he : (to_fetch_idx cache now cities).enum =
      List.enumFrom 0 (to_fetch_idx cache now cities) := rfl
  rw [he]
  rw [List.getD_eq_getElem?_getD,
    fillfold_getElem?_not_mem _ _ 0 _ i hnm]
  unfold results_init
  rw [List.getElem?_map, List.getElem?_eq_getElem hi]
  simp [hfresh]

/-- At the `j`-th stale position the aggregator returns the `j`-th batch
response entry, defaulting to `none` past the response's end. -/
theorem agg_temp_miss (cache : Cache) (now : ℚ)
    (oracle : List (ℚ × ℚ) → UpstreamOutcome) (cities : List City)
    (j : Nat) (hj : j < (to_fetch_idx cache now cities).length) :
    ((_get_temps_for_cities cache now oracle cities).1.getD
        (to_fetch_idx cache now cities)[j] default).temperatura =
      (_fetch_temps_batch_open_meteo oracle
        (to_fetch cache now cities)).getD j none := by
  have hmem : (to_fetch_idx cache now cities)[j] ∈ to_fetch_idx cache now cities :=
    List.getElem_mem hj
  have hi : (to_fetch_idx cache now cities)[j] < cities.length :=
    to_fetch_idx_lt hmem
  rw [List.getD_eq_getElem?_getD, agg_getElem? cache now oracle cities _ hi]
  show (mkOut _ _).temperatura = _
  unfold mkOut fill_results
  have he : (to_fetch_idx cache now cities).enum =
      List.enumFrom 0 (to_fetch_idx cache now cities) := rfl
  rw [he]
  have hb : ∀ i ∈ to_fetch_idx cache now cities,
      i < (results_init cache now cities).length := by
    intro i hmem2
    rw [results_init, List.length_map]
    exact to_fetch_idx_lt hmem2
  rw [List.getD_eq_getElem?_getD,
    fillfold_getElem?_at _ _ 0 _ (to_fetch_idx_nodup cache now cities) hb j hj]
  simp

/-- After the write-back loop, the cache binds the id of the city at the
`j`-th stale position to the `j`-th batch response entry stamped `now`,
provided the input ids are pairwise distinct. -/
theorem lookup_fill_cache (cache : Cache) (now : ℚ) (cities : List City)
    (fetched : List (Option ℚ)) (hnd : (cities.map City.id).Nodup)
    (j : Nat) (hj : j < (to_fetch_idx cache now cities).length) :
    cacheLookup
        (fill_cache cache now cities (to_fetch_idx cache now cities) fetched)
        (cities.getD (to_fetch_idx cache now cities)[j] default).id =
      some (fetched.getD j none, now) := by
  have hmem : (to_fetch_idx cache now cities)[j] ∈ to_fetch_idx cache now cities :=
    List.getElem_mem hj
  have hi : (to_fetch_idx cache now cities)[j] < cities.length :=
    to_fetch_idx_lt hmem
  rw [fill_cache_eq]
  set idx := to_fetch_idx cache now cities with hidx
  -- the insertion list and its key list
  set ins := idx.enum.map fun ji =>
    ((cities.getD ji.2 default).id, (fetched.getD ji.1 none, now)) with hins
  -- pairwise distinct keys of the insertion list
  have hkeys : (ins.map Prod.fst).Nodup := by
    rw [hins, List.map_map]
    have hinj : ∀ x ∈ idx.enum, ∀ y ∈ idx.enum,
        (Prod.fst ∘ fun ji =>
          ((cities.getD ji.2 default).id, (fetched.getD ji.1 none, now))) x =
        (Prod.fst ∘ fun ji =>
          ((cities.getD ji.2 default).id, (fetched.getD ji.1 none, now))) y →
        x = y := by
      intro x hx y hy hfxy
      have hx2 := List.mem_enum_iff_getElem?.1 hx
      have hy2 := List.mem_enum_iff_getElem?.1 hy
      have hxl : x.2 ∈ idx := by
        rcases List.getElem?_eq_some.1 hx2 with ⟨h, hh⟩
        exact hh ▸ List.getElem_mem h
      have hyl : y.2 ∈ idx := by
        rcases List.getElem?_eq_some.1 hy2 with ⟨h, hh⟩
        exact hh ▸ List.getElem_mem h
      have hxlt : x.2 < cities.length := to_fetch_idx_lt hxl
      have hylt : y.2 < cities.length := to_fetch_idx_lt hyl
      have hid : cities[x.2].id = cities[y.2].id := by
        have := hfxy
        simp only [Function.comp] at this
        rwa [List.getD_eq_getElem cities default hxlt,
          List.getD_eq_getElem cities default hylt] at this
      have hxlt2 : x.2 < (cities.map City.id).length := by
        rw [List.length_map]; exact hxlt
      have hylt2 : y.2 < (cities.map City.id).length := by
        rw [List.length_map]; exact hylt
      have hmx : (cities.map City.id)[x.2] = (cities.map City.id)[y.2] := by
        rw [List.getElem_map, List.getElem_map]
        exact hid
      have hsnd : x.2 = y.2 :=
        (List.Nodup.getElem_inj_iff hnd).1 hmx
      have hfst : x.1 = y.1 := by
        rcases List.getElem?_eq_some.1 hx2 with ⟨ha, hha⟩
        rcases List.getElem?_eq_some.1 hy2 with ⟨hb2, hhb⟩
        have : idx[x.1] = idx[y.1] := by rw [hha, hhb, hsnd]
        exact (List.Nodup.getElem_inj_iff (to_fetch_idx_nodup cache now cities)).1 this
      exact Prod.ext hfst hsnd
    exact List.Nodup.map_on hinj
      (List.Nodup.of_map Prod.fst
        (by rw [List.enum_map_fst]; exact List.nodup_range _))
  -- the binding for position j is in the insertion list
  have hmem2 : ((cities.getD idx[j] default).id, (fetched.getD j none, now)) ∈ ins := by
    rw [hins]
    exact List.mem_map.2 ⟨(j, idx[j]),
      List.mk_mem_enum_iff_getElem?.2 (List.getElem?_eq_getElem hj), rfl⟩
  exact cacheLookup_append_of_mem ins.reverse cache _ _
    (by rw [List.map_reverse]; exact List.nodup_reverse.2 hkeys)
    (List.mem_reverse.2 hmem2)

/-- The cache returned by the aggregator is the written-back cache. -/
theorem agg_snd (cache : Cache) (now : ℚ)
    (oracle : List (ℚ × ℚ) → UpstreamOutcome) (cities : List City) :
    (_get_temps_for_cities cache now oracle cities).2 =
      fill_cache cache now cities (to_fetch_idx cache now cities)
        (_fetch_temps_batch_open_meteo oracle (to_fetch cache now cities)) := rfl

/-- After a call, the cache binds the id of the city at the `j`-th stale
position to exactly the temperature the call resolved for it, stamped
`now` (ids pairwise distinct). -/
theorem agg_cacheLookup_at (cache : Cache) (now : ℚ)
    (oracle : List (ℚ × ℚ) → UpstreamOutcome) (cities : List City)
    (hnd : (cities.map City.id).Nodup)
    (j : Nat) (hj : j < (to_fetch_idx cache now cities).length) :
    cacheLookup (_get_temps_for_cities cache now oracle cities).2
        (cities.getD (to_fetch_idx cache now cities)[j] default).id =
      some
        (((_get_temps_for_cities cache now oracle cities).1.getD
            (to_fetch_idx cache now cities)[j] default).temperatura, now) := by
  rw [agg_snd, agg_temp_miss cache now oracle cities j hj]
  exact lookup_fill_cache cache now cities _ hnd j hj

/-! Lemmas about a call starting from an empty cache. -/

/-- With an empty cache every record is stale. -/
theorem cache_fresh_empty (now : ℚ) (cid : Nat) :
    _cache_fresh [] now cid = false := rfl

/-- From an empty cache the stale positions are all positions. -/
theorem to_fetch_idx_empty_cache (now : ℚ) (cities : List City) :
    to_fetch_idx [] now cities = List.range cities.length := by
  unfold to_fetch_idx staleEnum
  have hall : (cities.enum.filter fun p => ! _cache_fresh [] now p.2.id) =
      cities.enum :=
    List.filter_eq_self.2 fun a _ => rfl
  rw [hall, List.enum_map_fst]

/-- From an empty cache there are as many stale positions as records. -/
theorem to_fetch_idx_empty_length (now : ℚ) (cities : List City) :
    (to_fetch_idx [] now cities).length = cities.length := by
  rw [to_fetch_idx_empty_cache, List.length_range]

/-- From an empty cache the `i`-th stale position is `i`. -/
theorem to_fetch_idx_empty_getElem (now : ℚ) (cities : List City) (i : Nat)
    (hi : i < cities.length) (hlen : i < (to_fetch_idx [] now cities).length) :
    (to_fetch_idx [] now cities)[i] = i := by
  have h1 : (to_fetch_idx [] now cities)[i]? = some i := by
    rw [to_fetch_idx_empty_cache]
    exact List.getElem?_range hi
  rw [List.getElem?_eq_getElem hlen] at h1
  exact Option.some_inj.1 h1

/-- After a call from an empty cache, every record's id is bound to the
temperature resolved for it, stamped with the call time. -/
theorem agg_empty_cacheLookup (T1 : ℚ)
    (o1 : List (ℚ × ℚ) → UpstreamOutcome) (cities : List City)
    (hnd : (cities.map City.id).Nodup) (i : Nat) (hi : i < cities.length) :
    cacheLookup (_get_temps_for_cities [] T1 o1 cities).2 cities[i].id =
      some (((_get_temps_for_cities [] T1 o1 cities).1.getD i
        default).temperatura, T1) := by
  have hlen : i < (to_fetch_idx [] T1 cities).length := by
    rw [to_fetch_idx_empty_length]; exact hi
  have hgi : (to_fetch_idx [] T1 cities)[i] = i :=
    to_fetch_idx_empty_getElem T1 cities i hi hlen
  have h := agg_cacheLookup_at [] T1 o1 cities hnd i hlen
  rw [hgi, List.getD_eq_getElem cities default hi] at h
  exact h

/-- A second call within the TTL of a first call from an empty cache
finds every record fresh. -/
theorem agg_empty_then_fresh (T1 T2 : ℚ)
    (o1 : List (ℚ × ℚ) → UpstreamOutcome) (cities : List City)
    (hnd : (cities.map City.id).Nodup)
    (hTT : T2 - T1 < TEMP_CACHE_TTL_SECONDS) (i : Nat)
    (hi : i < cities.length) :
    _cache_fresh (_get_temps_for_cities [] T1 o1 cities).2 T2
      cities[i].id = true := by
  unfold _cache_fresh
  rw [agg_empty_cacheLookup T1 o1 cities hnd i hi]
  exact decide_eq_true hTT

/-- A second call within the TTL of a first call from an empty cache
fetches nothing. -/
theorem agg_empty_then_no_fetch (T1 T2 : ℚ)
    (o1 : List (ℚ × ℚ) → UpstreamOutcome) (cities : List City)
    (hnd : (cities.map City.id).Nodup)
    (hTT : T2 - T1 < TEMP_CACHE_TTL_SECONDS) :
    staleEnum (_get_temps_for_cities [] T1 o1 cities).2 T2 cities = [] := by
  unfold staleEnum
  refine List.filter_eq_nil_iff.2 fun p hp => ?_
  have hp2 := List.mem_enum_iff_getElem?.1 hp
  rcases List.getElem?_eq_some.1 hp2 with ⟨h, hh⟩
  rw [← hh]
  rw [agg_empty_then_fresh T1 T2 o1 cities hnd hTT p.1 h]
  simp

/-- A second call within the TTL of a first call from an empty cache
returns the same temperatures, whatever its upstream would answer. -/
theorem agg_empty_then_same_temps (T1 T2 : ℚ)
    (o1 o2 : List (ℚ × ℚ) → UpstreamOutcome) (cities : List City)
    (hnd : (cities.map City.id).Nodup)
    (hTT : T2 - T1 < TEMP_CACHE_TTL_SECONDS) :
    ((_get_temps_for_cities (_get_temps_for_cities [] T1 o1 cities).2 T2 o2
        cities).1).map CityOut.temperatura =
      ((_get_temps_for_cities [] T1 o1 cities).1).map CityOut.temperatura := by
  apply List.ext_getElem?
  intro i
  rw [List.getElem?_map, List.getElem?_map]
  by_cases hi : i < cities.length
  · have hlen1 : i < (_get_temps_for_cities [] T1 o1 cities).1.length := by
      rw [agg_length]; exact hi
    have hlen2 : i < (_get_temps_for_cities
        (_get_temps_for_cities [] T1 o1 cities).2 T2 o2 cities).1.length := by
      rw [agg_length]; exact hi
    rw [List.getElem?_eq_getElem hlen1, List.getElem?_eq_getElem hlen2]
    have h2 := (agg_temp_fresh (_get_temps_for_cities [] T1 o1 cities).2 T2 o2
      cities i hi (agg_empty_then_fresh T1 T2 o1 cities hnd hTT i hi)).1
    have h1 : cachedTemp (_get_temps_for_cities [] T1 o1 cities).2
        cities[i].id =
        ((_get_temps_for_cities [] T1 o1 cities).1.getD i
          default).temperatura := by
      unfold cachedTemp
      rw [agg_empty_cacheLookup T1 o1 cities hnd i hi]
    have key := h2.trans h1
    rw [List.getD_eq_getElem _ default hlen2,
      List.getD_eq_getElem _ default hlen1] at key
    rw [Option.map_some', Option.map_some', key]
  · have hn1 : (_get_temps_for_cities [] T1 o1 cities).1[i]? = none := by
      apply List.getElem?_eq_none
      rw [agg_length]; omega
    have hn2 : (_get_temps_for_cities
        (_get_temps_for_cities [] T1 o1 cities).2 T2 o2 cities).1[i]? = none := by
      apply List.getElem?_eq_none
      rw [agg_length]; omega
    rw [hn1, hn2]

/-! The claims. -/

/-- C1: for every input list of N city records, `_get_temps_for_cities`
returns exactly N result records, and the result at each position `i`
corresponds to the input record at position `i` — same id, name,
population and coordinates — before any caller-side sort. -/
theorem C1_one_result_per_record_in_input_order (cache : Cache) (now : ℚ)
    (oracle : List (ℚ × ℚ) → UpstreamOutcome) (cities : List City)
    (i : Nat) (hi : i < cities.length) :
    (_get_temps_for_cities cache now oracle cities).1.length =
        cities.length ∧
      ((_get_temps_for_cities cache now oracle cities).1.getD i
          default).id = cities[i].id ∧
      ((_get_temps_for_cities cache now oracle cities).1.getD i
          default).cidade = cities[i].nome ∧
      ((_get_temps_for_cities cache now oracle cities).1.getD i
          default).habitantes = cities[i].pop ∧
      ((_get_temps_for_cities cache now oracle cities).1.getD i
          default).lat = cities[i].lat ∧
      ((_get_temps_for_cities cache now oracle cities).1.getD i
          default).lon = cities[i].lon := by
  refine ⟨agg_length cache now oracle cities, ?_⟩
  rw [List.getD_eq_getElem?_getD, agg_getElem? cache now oracle cities i hi]
  exact ⟨rfl, rfl, rfl, rfl, rfl⟩

/-- Witness for C1: a concrete two-record call, checked at position 1. -/
theorem C1_one_result_per_record_in_input_order_witness :
    1 < ([⟨10, "A", 1, 2, 100⟩, ⟨11, "B", 3, 4, 200⟩] : List City).length ∧
      ((_get_temps_for_cities [] 0
          (fun _ => .ok (.array [some 28, some 25]))
          [⟨10, "A", 1, 2, 100⟩, ⟨11, "B", 3, 4, 200⟩]).1.length = 2 ∧
        ((_get_temps_for_cities [] 0
            (fun _ => .ok (.array [some 28, some 25]))
            [⟨10, "A", 1, 2, 100⟩, ⟨11, "B", 3, 4, 200⟩]).1.getD 1
            default).id = 11 ∧
        ((_get_temps_for_cities [] 0
            (fun _ => .ok (.array [some 28, some 25]))
            [⟨10, "A", 1, 2, 100⟩, ⟨11, "B", 3, 4, 200⟩]).1.getD 1
            default).cidade = "B") := by
  have h := C1_one_result_per_record_in_input_order [] 0
    (fun _ => .ok (.array [some 28, some 25]))
    [⟨10, "A", 1, 2, 100⟩, ⟨11, "B", 3, 4, 200⟩] 1 (by decide)
  exact ⟨by decide, h.1, h.2.1, h.2.2.1⟩

/-- C3: if the upstream batch call fails entirely, every record of the
batch resolves to an absent temperature, and — from a cold cache — all N
records do.  The embedding is a total function: the bare `except` of
`_fetch_temps_batch_open_meteo` means no exception leaves the
aggregator for an upstream fault. -/
theorem C3_total_upstream_failure_all_absent (cache : Cache) (now : ℚ)
    (oracle : List (ℚ × ℚ) → UpstreamOutcome) (cities : List City)
    (hfail : oracle (to_fetch cache now cities) = .failure) :
    (∀ j, (hj : j < (to_fetch_idx cache now cities).length) →
      ((_get_temps_for_cities cache now oracle cities).1.getD
          (to_fetch_idx cache now cities)[j] default).temperatura = none) ∧
      (cache = [] → ∀ i, i < cities.length →
        ((_get_temps_for_cities cache now oracle cities).1.getD i
            default).temperatura = none) := by
  have hfetched : ∀ j,
      (_fetch_temps_batch_open_meteo oracle
        (to_fetch cache now cities)).getD j none = none := by
    intro j
    unfold _fetch_temps_batch_open_meteo
    by_cases hz : to_fetch cache now cities = []
    · rw [if_pos hz]; rfl
    · rw [if_neg hz, hfail, List.getD_eq_getElem?_getD,
        List.getElem?_replicate]
      split
      · rfl
      · rfl
  have hpart : ∀ j, (hj : j < (to_fetch_idx cache now cities).length) →
      ((_get_temps_for_cities cache now oracle cities).1.getD
          (to_fetch_idx cache now cities)[j] default).temperatura = none := by
    intro j hj
    rw [agg_temp_miss cache now oracle cities j hj]
    exact hfetched j
  refine ⟨hpart, ?_⟩
  rintro rfl i hi
  have hlen : i < (to_fetch_idx [] now cities).length := by
    rw [to_fetch_idx_empty_length]; exact hi
  have h := hpart i hlen
  rw [to_fetch_idx_empty_getElem now cities i hi hlen] at h
  exact h

/-- Witness for C3: a single-record call against a failing upstream. -/
theorem C3_total_upstream_failure_all_absent_witness :
    ((fun _ => UpstreamOutcome.failure)
        (to_fetch [] 0 [⟨10, "A", 1, 2, 100⟩]) =
      UpstreamOutcome.failure) ∧
      ((_get_temps_for_cities [] 0 (fun _ => UpstreamOutcome.failure)
          [⟨10, "A", 1, 2, 100⟩]).1.getD 0 default).temperatura = none :=
  ⟨rfl, (C3_total_upstream_failure_all_absent [] 0
    (fun _ => UpstreamOutcome.failure) [⟨10, "A", 1, 2, 100⟩] rfl).2 rfl 0
    (by decide)⟩

/-- C9: on the empty input list the batch fetcher returns `[]` and issues
no upstream request, and the aggregator returns the empty result list,
leaving the cache untouched. -/
theorem C9_empty_input_no_request (cache : Cache) (now : ℚ)
    (oracle : List (ℚ × ℚ) → UpstreamOutcome) :
    upstreamCalls [] = [] ∧
      _fetch_temps_batch_open_meteo oracle [] = [] ∧
      _get_temps_for_cities cache now oracle [] = ([], cache) :=
  ⟨rfl, rfl, rfl⟩

/-- C10: a scalar upstream payload fills only the first requested
position, the rest resolving absent; a missing or null payload resolves
every position absent. -/
theorem C10_scalar_payload_first_position_only
    (o1 o2 : List (ℚ × ℚ) → UpstreamOutcome) (latlons : List (ℚ × ℚ))
    (t : ℚ) (hne : latlons ≠ [])
    (h1 : o1 latlons = .ok (.scalar t)) (h2 : o2 latlons = .ok .missing) :
    _fetch_temps_batch_open_meteo o1 latlons =
        some t :: List.replicate (latlons.length - 1) none ∧
      _fetch_temps_batch_open_meteo o2 latlons =
        List.replicate latlons.length none := by
  unfold _fetch_temps_batch_open_meteo
  rw [if_neg hne, if_neg hne, h1, h2]
  exact ⟨rfl, rfl⟩

/-- Witness for C10: two requested coordinates, scalar payload `30`. -/
theorem C10_scalar_payload_first_position_only_witness :
    (([((1 : ℚ), (2 : ℚ)), (3, 4)] : List (ℚ × ℚ)) ≠ []) ∧
      _fetch_temps_batch_open_meteo
          (fun _ => .ok (.scalar 30)) [(1, 2), (3, 4)] = [some 30, none] ∧
      _fetch_temps_batch_open_meteo
          (fun _ => .ok .missing) [(1, 2), (3, 4)] = [none, none] := by
  have h := C10_scalar_payload_first_position_only
    (fun _ => .ok (.scalar 30)) (fun _ => .ok .missing)
    [(1, 2), (3, 4)] 30 (by decide) rfl rfl
  exact ⟨by decide, h.1, h.2⟩

/-- C2: a cache entry `(v, T)` for a record's id is reused — and the
record joins no upstream fetch — at any call time strictly before
`T + TEMP_CACHE_TTL_SECONDS`, while at any time `≥ T +
TEMP_CACHE_TTL_SECONDS` the record is marked for refetch; consequently
re-invoking within the TTL of a first call, with an upstream that would
answer differently, still returns the originally cached values and
fetches nothing. -/
theorem C2_ttl_freshness_semantics (cache : Cache) (now : ℚ)
    (oracle : List (ℚ × ℚ) → UpstreamOutcome) (cities : List City)
    (i : Nat) (v : Option ℚ) (T : ℚ) (hi : i < cities.length)
    (hc : cacheLookup cache cities[i].id = some (v, T)) :
    (now < T + TEMP_CACHE_TTL_SECONDS →
      ((_get_temps_for_cities cache now oracle cities).1.getD i
          default).temperatura = v ∧
        i ∉ to_fetch_idx cache now cities) ∧
      (T + TEMP_CACHE_TTL_SECONDS ≤ now →
        i ∈ to_fetch_idx cache now cities) ∧
      (∀ T1 T2 : ℚ, ∀ o1 o2 : List (ℚ × ℚ) → UpstreamOutcome,
        (cities.map City.id).Nodup → T2 - T1 < TEMP_CACHE_TTL_SECONDS →
        to_fetch (_get_temps_for_cities [] T1 o1 cities).2 T2 cities = [] ∧
          ((_get_temps_for_cities (_get_temps_for_cities [] T1 o1 cities).2
              T2 o2 cities).1).map CityOut.temperatura =
            ((_get_temps_for_cities [] T1 o1 cities).1).map
              CityOut.temperatura) := by
  refine ⟨?_, ?_, ?_⟩
  · intro hnow
    have hfresh : _cache_fresh cache now cities[i].id = true := by
      unfold _cache_fresh
      rw [hc]
      exact decide_eq_true (sub_lt_iff_lt_add'.2 hnow)
    have h := agg_temp_fresh cache now oracle cities i hi hfresh
    refine ⟨h.1.trans ?_, h.2⟩
    unfold cachedTemp
    rw [hc]
  · intro hge
    have hfresh : _cache_fresh cache now cities[i].id = false := by
      unfold _cache_fresh
      rw [hc]
      exact decide_eq_false (fun hlt => by
        rw [sub_lt_iff_lt_add'] at hlt
        exact absurd hge (not_le.2 hlt))
    exact mem_to_fetch_idx.2 ⟨cities[i], List.getElem?_eq_getElem hi, hfresh⟩
  · intro T1 T2 o1 o2 hnd hTT
    constructor
    · unfold to_fetch
      rw [agg_empty_then_no_fetch T1 T2 o1 cities hnd hTT]
      rfl
    · exact agg_empty_then_same_temps T1 T2 o1 o2 cities hnd hTT

/-- Witness for C2: a fresh entry `(some 25, 0)` read at time `100`. -/
theorem C2_ttl_freshness_semantics_witness :
    0 < ([⟨1, "A", 1, 2, 10⟩] : List City).length ∧
      cacheLookup [(1, (some 25, 0))]
          (([⟨1, "A", 1, 2, 10⟩] : List City).getD 0 default).id =
        some (some 25, 0) ∧
      ((100 : ℚ) < 0 + TEMP_CACHE_TTL_SECONDS) ∧
      ((_get_temps_for_cities [(1, (some 25, 0))] 100
          (fun _ => UpstreamOutcome.failure)
          [⟨1, "A", 1, 2, 10⟩]).1.getD 0 default).temperatura = some 25 ∧
      0 ∉ to_fetch_idx [(1, (some 25, 0))] 100 [⟨1, "A", 1, 2, 10⟩] := by
  have h := C2_ttl_freshness_semantics [(1, (some 25, 0))] 100
    (fun _ => UpstreamOutcome.failure) [⟨1, "A", 1, 2, 10⟩] 0 (some 25) 0
    (by decide) rfl
  have hlt : (100 : ℚ) < 0 + TEMP_CACHE_TTL_SECONDS := by
    norm_num [TEMP_CACHE_TTL_SECONDS]
  exact ⟨by decide, rfl, hlt, (h.1 hlt).1, (h.1 hlt).2⟩

/-- C4: when the upstream response array has `M` entries for a batch of
`K > M` positions, each batch position `j` receives the `j`-th returned
entry and every position `j ≥ M` resolves absent; the model is total, so
nothing raises. -/
theorem C4_short_response_missing_tail_absent (cache : Cache) (now : ℚ)
    (oracle : List (ℚ × ℚ) → UpstreamOutcome) (cities : List City)
    (ts : List (Option ℚ)) (hne : to_fetch cache now cities ≠ [])
    (hresp : oracle (to_fetch cache now cities) = .ok (.array ts)) :
    ∀ j, (hj : j < (to_fetch_idx cache now cities).length) →
      ((_get_temps_for_cities cache now oracle cities).1.getD
          (to_fetch_idx cache now cities)[j] default).temperatura =
        ts.getD j none ∧
      (ts.length ≤ j →
        ((_get_temps_for_cities cache now oracle cities).1.getD
            (to_fetch_idx cache now cities)[j] default).temperatura =
          none) := by
  intro j hj
  have hfetched : _fetch_temps_batch_open_meteo oracle
      (to_fetch cache now cities) = ts := by
    unfold _fetch_temps_batch_open_meteo
    rw [if_neg hne, hresp]
  have h1 := agg_temp_miss cache now oracle cities j hj
  rw [hfetched] at h1
  refine ⟨h1, fun hM => ?_⟩
  rw [h1, List.getD_eq_getElem?_getD, List.getElem?_eq_none hM]
  rfl

/-- Witness for C4: three requested records, two returned entries — the
first position gets `21`, the third resolves absent. -/
theorem C4_short_response_missing_tail_absent_witness :
    (to_fetch [] 0 [⟨10, "A", 1, 2, 100⟩, ⟨11, "B", 3, 4, 200⟩,
        ⟨12, "C", 5, 6, 300⟩] ≠ []) ∧
      ((fun _ => UpstreamOutcome.ok (.array [some 21, some 22]))
          (to_fetch [] 0 [⟨10, "A", 1, 2, 100⟩, ⟨11, "B", 3, 4, 200⟩,
            ⟨12, "C", 5, 6, 300⟩]) =
        UpstreamOutcome.ok (.array [some 21, some 22])) ∧
      ((_get_temps_for_cities [] 0
          (fun _ => UpstreamOutcome.ok (.array [some 21, some 22]))
          [⟨10, "A", 1, 2, 100⟩, ⟨11, "B", 3, 4, 200⟩,
            ⟨12, "C", 5, 6, 300⟩]).1.getD
          (to_fetch_idx [] 0 [⟨10, "A", 1, 2, 100⟩, ⟨11, "B", 3, 4, 200⟩,
            ⟨12, "C", 5, 6, 300⟩])[0] default).temperatura = some 21 ∧
      ((_get_temps_for_cities [] 0
          (fun _ => UpstreamOutcome.ok (.array [some 21, some 22]))
          [⟨10, "A", 1, 2, 100⟩, ⟨11, "B", 3, 4, 200⟩,
            ⟨12, "C", 5, 6, 300⟩]).1.getD
          (to_fetch_idx [] 0 [⟨10, "A", 1, 2, 100⟩, ⟨11, "B", 3, 4, 200⟩,
            ⟨12, "C", 5, 6, 300⟩])[2] default).temperatura = none := by
  have h0 := C4_short_response_missing_tail_absent [] 0
    (fun _ => UpstreamOutcome.ok (.array [some 21, some 22]))
    [⟨10, "A", 1, 2, 100⟩, ⟨11, "B", 3, 4, 200⟩, ⟨12, "C", 5, 6, 300⟩]
    [some 21, some 22] (by decide) rfl 0 (by decide)
  have h2 := C4_short_response_missing_tail_absent [] 0
    (fun _ => UpstreamOutcome.ok (.array [some 21, some 22]))
    [⟨10, "A", 1, 2, 100⟩, ⟨11, "B", 3, 4, 200⟩, ⟨12, "C", 5, 6, 300⟩]
    [some 21, some 22] (by decide) rfl 2 (by decide)
  exact ⟨by decide, rfl, h0.1, h2.2 (by decide)⟩

/-- C5 counterexample: there is no bound (no `maxBatchSize`) on the size
of an upstream call — the fetcher always issues a single call carrying
the entire to-fetch list, so for every candidate bound `B` a request of
`B + 1` coordinates exceeds it. -/
theorem C5_counterexample_no_batch_size_bound :
    ¬ ∃ B : Nat, ∀ latlons : List (ℚ × ℚ),
        ∀ call ∈ upstreamCalls latlons, call.length ≤ B := by
  rintro ⟨B, hB⟩
  have hne : List.replicate (B + 1) ((0 : ℚ), (0 : ℚ)) ≠ [] := by
    simp
  have hmem : List.replicate (B + 1) ((0 : ℚ), (0 : ℚ)) ∈
      upstreamCalls (List.replicate (B + 1) ((0 : ℚ), (0 : ℚ))) := by
    unfold upstreamCalls
    rw [if_neg hne]
    exact List.mem_singleton.2 rfl
  have h := hB _ _ hmem
  rw [List.length_replicate] at h
  omega

/-- C5 (amended): all records needing a fetch are fetched in exactly one
upstream call — never one call per record — whose coordinate list is the
stale records' `(lat, lon)` pairs in input order, comma-joined into the
parallel `latitude` array of the request; there is no `maxBatchSize` and
the single call is never split. -/
theorem C5_single_unbounded_batched_call (cache : Cache) (now : ℚ)
    (cities : List City) (hne : to_fetch cache now cities ≠ []) :
    upstreamCalls (to_fetch cache now cities) =
        [to_fetch cache now cities] ∧
      (upstreamCalls (to_fetch cache now cities)).length = 1 ∧
      to_fetch cache now cities =
        ((cities.filter fun c => ! _cache_fresh cache now c.id).map
          fun c => (c.lat, c.lon)) ∧
      batchLats (to_fetch cache now cities) =
        String.intercalate ","
          ((cities.filter fun c => ! _cache_fresh cache now c.id).map
            fun c => toString c.lat) := by
  have hone : upstreamCalls (to_fetch cache now cities) =
      [to_fetch cache now cities] := by
    unfold upstreamCalls
    rw [if_neg hne]
  refine ⟨hone, by rw [hone]; rfl, to_fetch_eq cache now cities, ?_⟩
  unfold batchLats
  rw [to_fetch_eq, List.map_map]
  rfl

/-- Witness for C5 (amended): one stale record yields one call. -/
theorem C5_single_unbounded_batched_call_witness :
    (to_fetch [] 0 [⟨10, "A", 1, 2, 100⟩] ≠ []) ∧
      upstreamCalls (to_fetch [] 0 [⟨10, "A", 1, 2, 100⟩]) = [[(1, 2)]] ∧
      (upstreamCalls (to_fetch [] 0 [⟨10, "A", 1, 2, 100⟩])).length = 1 ∧
      batchLats (to_fetch [] 0 [⟨10, "A", 1, 2, 100⟩]) = "1" := by
  have h := C5_single_unbounded_batched_call [] 0 [⟨10, "A", 1, 2, 100⟩]
    (by decide)
  exact ⟨by decide, by simpa using h.1, h.2.1, by decide⟩

/-- C6: after a call, every record that was fetched (cache miss or stale
entry) has its cache entry set to exactly the temperature the call
resolved for it, stamped `now` — including an absent resolution, which
is cached like a present one (ids pairwise distinct). -/
theorem C6_fetched_record_cached_at_now (cache : Cache) (now : ℚ)
    (oracle : List (ℚ × ℚ) → UpstreamOutcome) (cities : List City)
    (hnd : (cities.map City.id).Nodup)
    (j : Nat) (hj : j < (to_fetch_idx cache now cities).length) :
    cacheLookup (_get_temps_for_cities cache now oracle cities).2
        (cities.getD (to_fetch_idx cache now cities)[j] default).id =
      some
        (((_get_temps_for_cities cache now oracle cities).1.getD
            (to_fetch_idx cache now cities)[j] default).temperatura,
          now) :=
  agg_cacheLookup_at cache now oracle cities hnd j hj

/-- Witness for C6: a failed fetch caches `(none, 5)` for id `10`. -/
theorem C6_fetched_record_cached_at_now_witness :
    ((([⟨10, "A", 1, 2, 100⟩] : List City).map City.id).Nodup) ∧
      cacheLookup (_get_temps_for_cities [] 5
          (fun _ => UpstreamOutcome.failure) [⟨10, "A", 1, 2, 100⟩]).2 10 =
        some (none, 5) := by
  have h := C6_fetched_record_cached_at_now [] 5
    (fun _ => UpstreamOutcome.failure) [⟨10, "A", 1, 2, 100⟩]
    (by decide) 0 (by decide)
  exact ⟨by decide, h⟩

/-- C7: evaluation at the failing input.  Three rows with temperatures
`0`, `-5` and absent are sorted by `/api/cities` into `[-5, 0, absent]`:
the absent row is last as claimed, but the present temperatures are in
increasing order — `x["temperatura"] or -9999` treats the present
temperature `0.0` as falsy and substitutes `-9999`, so the row sorts as
the coldest present row, contradicting the hottest-first order the code
itself announces. -/
theorem C7_zero_temperature_sorts_as_coldest :
    api_cities_sortData
        [mkOut ⟨10, "A", 1, 2, 100⟩ (some 0),
          mkOut ⟨11, "B", 3, 4, 200⟩ (some (-5)),
          mkOut ⟨12, "C", 5, 6, 300⟩ none] =
      [mkOut ⟨11, "B", 3, 4, 200⟩ (some (-5)),
        mkOut ⟨10, "A", 1, 2, 100⟩ (some 0),
        mkOut ⟨12, "C", 5, 6, 300⟩ none] := by
  decide

/-- C8 counterexample: with two records and completion order `[1, 0]`,
the fan-out variant's first collected row is the second input record —
rows are appended in `as_completed` order, never reassembled into input
order. -/
theorem C8_counterexample_output_in_completion_order :
    ((fanout_results [⟨10, "A", 1, 2, 100⟩, ⟨11, "B", 3, 4, 200⟩]
          (fun i => if i = 0 then some 20 else some 30) [1, 0]).getD 0
        default).id ≠
      (([⟨10, "A", 1, 2, 100⟩, ⟨11, "B", 3, 4, 200⟩] : List City).getD 0
        default).id := by
  decide

/-- C8 (amended): the fan-out variant emits one row per completed future,
in completion order: when the completion order is a permutation of the
input positions, the output has one row per input record, and the `j`-th
output row carries the record and resolved temperature of input position
`completion[j]` — so the output is a permutation of the per-input rows,
in input order only when the completion order is the identity. -/
theorem C8_fanout_rows_in_completion_order (cities : List City)
    (tempOf : Nat → Option ℚ) (completion : List Nat)
    (hperm : completion.Perm (List.range cities.length)) :
    (fanout_results cities tempOf completion).length = cities.length ∧
      ∀ j, j < completion.length →
        (fanout_results cities tempOf completion).getD j default =
          mkOut (cities.getD (completion.getD j 0) default)
            (tempOf (completion.getD j 0)) := by
  constructor
  · unfold fanout_results
    rw [List.length_map, hperm.length_eq, List.length_range]
  · intro j hj
    have hc : completion.getD j 0 = completion[j] :=
      List.getD_eq_getElem completion 0 hj
    unfold fanout_results
    rw [hc, List.getD_eq_getElem?_getD, List.getElem?_map,
      List.getElem?_eq_getElem hj, Option.map_some']
    rfl

/-- Witness for C8 (amended): two records completing in order `[1, 0]`. -/
theorem C8_fanout_rows_in_completion_order_witness :
    ([1, 0] : List Nat).Perm (List.range 2) ∧
      (fanout_results [⟨10, "A", 1, 2, 100⟩, ⟨11, "B", 3, 4, 200⟩]
          (fun i => if i = 0 then some 20 else some 30) [1, 0]).length = 2 ∧
      (fanout_results [⟨10, "A", 1, 2, 100⟩, ⟨11, "B", 3, 4, 200⟩]
          (fun i => if i = 0 then some 20 else some 30) [1, 0]).getD 0
          default =
        mkOut ⟨11, "B", 3, 4, 200⟩ (some 30) := by
  have h := C8_fanout_rows_in_completion_order
    [⟨10, "A", 1, 2, 100⟩, ⟨11, "B", 3, 4, 200⟩]
    (fun i => if i = 0 then some 20 else some 30) [1, 0] (by decide)
  exact ⟨by decide, h.1, h.2 0 (by decide)⟩

end TempBrasil
